import Mathlib

/-!
Verification of the incremental merge engine of `src/main.py` (foreclosure
sales scraper).  The definitions below are a shallow embedding of the Python
source: a sheet is a list of rows, a row a list of cell strings, and every
function mirrors the corresponding Python function or inline code block.
Line references point into `src/main.py`.
-/

namespace Foreclosure

/-- A row of a spreadsheet tab: a list of cell strings. -/
abbrev Row := List String

/-- The stored content of a spreadsheet tab, as read by
`SheetsClient.get_values` and written by `write_values`: a list of rows. -/
abbrev Sheet := List Row

/-- Python whitespace characters matched by `\s` and stripped by `str.strip`
(ASCII fragment: space, tab, newline, carriage return, vertical tab, form
feed). -/
def isPySpace (c : Char) : Bool :=
  c == ' ' || c == '\t' || c == '\n' || c == '\r' ||
  c == Char.ofNat 11 || c == Char.ofNat 12

/-- Drop trailing whitespace characters (the right half of `str.strip`):
a character is dropped exactly when it is whitespace and everything after
it was dropped. -/
def trimEndWs : List Char → List Char
  | [] => []
  | c :: cs =>
    if (trimEndWs cs).isEmpty && isPySpace c then [] else c :: trimEndWs cs

/-- Characters of a string after `str.strip`: leading and trailing
whitespace removed. -/
def stripChars (l : List Char) : List Char :=
  trimEndWs (l.dropWhile isPySpace)

/-- Python `s.strip()`. -/
def pyStrip (s : String) : String :=
  String.mk (stripChars s.data)

/-- Python `s.lower()` (ASCII fragment). -/
def pyLower (s : String) : String :=
  String.mk (s.data.map Char.toLower)

/-- Python `s.replace(" ", "")`. -/
def removeSpaces (s : String) : String :=
  String.mk (s.data.filter (fun c => c != ' '))

/-- One maximal run of whitespace becomes a single space: the characters of
`re.sub(r"\s+", " ", s)`.  The boolean records whether the previous
character was whitespace (so the run emits only one space). -/
def collapseGo : Bool → List Char → List Char
  | _, [] => []
  | true, c :: cs =>
    if isPySpace c then collapseGo true cs else c :: collapseGo false cs
  | false, c :: cs =>
    if isPySpace c then ' ' :: collapseGo true cs else c :: collapseGo false cs

/-- `norm_text` of `src/main.py` lines 226-229:
`if not s: return ""` then `re.sub(r"\s+", " ", s).strip()`. -/
def norm_text (s : String) : String :=
  if s = "" then "" else pyStrip (String.mk (collapseGo false s.data))

/-- The dict comprehension of `src/main.py` line 446:
`{k: norm_text(v) for k, v in row_data.items()}` - every field value of a
scraped record passes through `norm_text`. -/
def normalizeRecord (row : List (String × String)) : List (String × String) :=
  row.map (fun kv => (kv.1, norm_text kv.2))

/-- Whether the first cell of a row is the canonical id-column label:
`row and row[0].lower().replace(" ", "") in {"propertyid", "property id"}`
(`src/main.py` line 518 and the identical scans at 546, 600, 632). -/
def isHeaderRow (r : Row) : Bool :=
  match r with
  | [] => false
  | c :: _ =>
    removeSpaces (pyLower c) == "propertyid" ||
    removeSpaces (pyLower c) == "property id"

/-- Scan of `enumerate(existing[:5])` for the first header row. -/
def findHeaderIdxAux : List Row → Nat → Option Nat
  | [], _ => none
  | r :: rs, i => if isHeaderRow r then some i else findHeaderIdxAux rs (i + 1)

/-- Locate the header row index: first row among the first five whose first
cell normalizes to the id-column label; fall back to index 1 when at least
two rows exist, else 0 (`src/main.py` lines 516-522). -/
def findHeaderIdx (existing : Sheet) : Nat :=
  match findHeaderIdxAux (existing.take 5) 0 with
  | some i => i
  | none => if existing.length > 1 then 1 else 0

/-- The skip test of the row loops (`src/main.py` lines 523-525, 551-552):
a row is kept unless it is empty or a single-cell blank separator. -/
def keepRow : Row → Bool
  | [] => false
  | c :: rest => !(rest.isEmpty && (pyStrip c == ""))

/-- `pid = (r[0] or "").strip()` (`src/main.py` line 526). -/
def rowPid (r : Row) : String :=
  pyStrip (r.headD "")

/-- The set of stored property ids beneath the first located header
(`src/main.py` lines 514-528): non-blank rows below `header_idx`, first
cell stripped, empty ids skipped. -/
def existingIds (existing : Sheet) : List String :=
  ((existing.drop (findHeaderIdx existing + 1)).filter keepRow).filterMap
    (fun r => if rowPid r = "" then none else some (rowPid r))

/-- `new_df = df_county[~df_county["Property ID"].isin(existing_ids)]`
(`src/main.py` line 530): incoming rows whose raw first cell is not among
the stored ids. -/
def newRecords (incoming : List Row) (existing : Sheet) : List Row :=
  incoming.filter (fun r => !(decide ((r.headD "") ∈ existingIds existing)))

/-- `existing[1] if len(existing) > 1 else (existing[0] if existing else [])`
(`src/main.py` lines 537, 625). -/
def existingHeaderRow (existing : Sheet) : Row :=
  match existing with
  | [] => []
  | [a] => a
  | _ :: b :: _ => b

/-- Python `set(a) == set(b)`: order- and multiplicity-insensitive equality
of two header rows (`src/main.py` lines 538, 626 compare the negation). -/
def setEq (a b : Row) : Bool :=
  a.all (fun x => b.contains x) && b.all (fun x => a.contains x)

/-- The rows gathered for a schema-migrating flatten (`src/main.py` lines
541-553): every non-blank row beneath the first located header. -/
def collectData (existing : Sheet) : List Row :=
  (existing.drop (findHeaderIdx existing + 1)).filter keepRow

/-- The write plan a merge decides on (`src/main.py` lines 531-557). -/
inductive Plan where
  | noop : Plan
  | prepend : Row → List Row → Plan
  | migrate : Row → List Row → Plan
deriving DecidableEq

/-- The subsequent-run merge decision for one tab (`src/main.py` lines
513-557): no new rows is a no-op; otherwise prepend a snapshot when the
header sets match, else flatten history plus new rows under the incoming
header. -/
def mergePlan (countyHeader : Row) (incoming : List Row) (existing : Sheet) :
    Plan :=
  let nr := newRecords incoming existing
  if nr = [] then Plan.noop
  else if setEq countyHeader (existingHeaderRow existing) then
    Plan.prepend countyHeader nr
  else
    Plan.migrate countyHeader (collectData existing ++ nr)

/-- One snapshot block as assembled by `prepend_snapshot` and
`overwrite_with_snapshot` (`src/main.py` lines 204-221): label row, header
row, data rows, blank separator row. -/
def snapshotBlock (label : String) (header : Row) (rows : List Row) : Sheet :=
  [label] :: header :: (rows ++ [[""]])

/-- Effect of a plan on the stored tab content: `prepend_snapshot` writes
the block above the existing rows, `overwrite_with_snapshot` replaces the
tab with the block. -/
def applyPlan (label : String) (existing : Sheet) : Plan → Sheet
  | Plan.noop => existing
  | Plan.prepend h rows => snapshotBlock label h rows ++ existing
  | Plan.migrate h rows => snapshotBlock label h rows

/-- The stored tab content after one subsequent-run merge. -/
def mergeStep (label : String) (header : Row) (incoming : List Row)
    (existing : Sheet) : Sheet :=
  applyPlan label existing (mergePlan header incoming existing)

/-- The per-county branch of `run` (`src/main.py` lines 509-557): on the
first run, or when the county tab does not exist, the whole tab is replaced
by a single snapshot block of the incoming rows; otherwise the incremental
merge runs. -/
def countyStep (firstRun tabExists : Bool) (label : String) (header : Row)
    (incoming : List Row) (existing : Sheet) : Sheet :=
  if firstRun || !tabExists then snapshotBlock label header incoming
  else mergeStep label header incoming existing

/-- `has_sale_type = any(len(r) == 7 for r in all_data_rows)`
(`src/main.py` line 576). -/
def hasSaleType (rows : List Row) : Bool :=
  rows.any (fun r => r.length == 7)

/-- The 6-column-to-7-column padding of `src/main.py` lines 580-585: a
six-cell row gets an empty Sale Type inserted before the County cell. -/
def padSaleType : Row → Row
  | [a, b, c, d, e, f] => [a, b, c, d, e, "", f]
  | r => r

/-- Row normalization for the aggregate sheet (`src/main.py` lines
577-588): applied only when some row of the batch carries Sale Type. -/
def normalizeAllRows (rows : List Row) : List Row :=
  if hasSaleType rows then rows.map padSaleType else rows

/-- `pid = (r[0] if len(r) > 0 else "").strip()` (`src/main.py` lines
608, 616). -/
def aggPid (r : Row) : String :=
  pyStrip (r.headD "")

/-- The County cell of an aggregate row, read at the run-wide column index
`6 if has_sale_type else 5` (`src/main.py` lines 609-610, 617-618). -/
def aggCty (hasST : Bool) (r : Row) : String :=
  pyStrip (r.getD (if hasST then 6 else 5) "")

/-- The stored `(county, property id)` pairs of the aggregate sheet
(`src/main.py` lines 595-612): non-blank rows beneath the first located
header, both components non-empty, County read at the single run-wide
index. -/
def aggExistingPairs (hasST : Bool) (existing : Sheet) :
    List (String × String) :=
  ((existing.drop (findHeaderIdx existing + 1)).filter keepRow).filterMap
    (fun r =>
      if aggPid r ≠ "" ∧ aggCty hasST r ≠ "" then
        some (aggCty hasST r, aggPid r)
      else none)

/-- The aggregate new-row selection (`src/main.py` lines 614-620): rows of
the batch with non-empty id and county whose pair is not already stored. -/
def aggNewRows (hasST : Bool) (rows : List Row) (existing : Sheet) :
    List Row :=
  rows.filter (fun r =>
    decide (aggPid r ≠ "" ∧ aggCty hasST r ≠ "" ∧
      (aggCty hasST r, aggPid r) ∉ aggExistingPairs hasST existing))

/-- Outcome of one Google Sheets API call. -/
inductive ApiResult where
  | ok : ApiResult
  | httpError : ApiResult
deriving DecidableEq

/-- The three externally determined outcomes inside
`SheetsClient.write_values` (`src/main.py` lines 154-195): the data
`values().update` call, the `_get_sheet_id` lookup (`none` when the lookup
fails, since `spreadsheet_info` swallows its own errors), and the styling
`batchUpdate` call. -/
structure WriteEnv where
  dataUpdate : ApiResult
  sheetId : Option Nat
  styling : ApiResult

/-- `SheetsClient.write_values` control flow: the whole body sits in one
`try`, and the `except HttpError` handler prints and re-raises.  The result
is `(raised, dataPersisted)`: whether the call raises to its caller, and
whether the data update had already executed. -/
def write_values (env : WriteEnv) : Bool × Bool :=
  match env.dataUpdate with
  | ApiResult.httpError => (true, false)
  | ApiResult.ok =>
    match env.sheetId with
    | none => (false, true)
    | some _ =>
      match env.styling with
      | ApiResult.httpError => (true, true)
      | ApiResult.ok => (false, true)

/-- Process exit status (`src/main.py` lines 464-475, 571-572, 650-655):
`sys.exit(1)` when `SPREADSHEET_ID` is missing or the Sheets client cannot
be built, exit 1 from the `__main__` guard on an uncaught fatal error, and
a normal exit 0 otherwise.  The scraped row set is passed in to record that
the exit status never depends on it: an all-empty run only prints a warning
and skips the aggregate sheet. -/
def processExitCode (spreadsheetIdSet initOk fatalError : Bool)
    (allDataRows : List Row) : Nat :=
  if spreadsheetIdSet = false then 1
  else if initOk = false then 1
  else if fatalError then 1
  else 0

/-- Is the first character whitespace? -/
def headWs : List Char → Bool
  | [] => false
  | c :: _ => isPySpace c

/-- Is the last character whitespace? -/
def lastWs (l : List Char) : Bool :=
  headWs l.reverse

/-- No two adjacent whitespace characters. -/
def noDoubleWs : List Char → Bool
  | [] => true
  | [_] => true
  | a :: b :: t => !(isPySpace a && isPySpace b) && noDoubleWs (b :: t)

/-- A string is whitespace-normalized: every whitespace character in it is
a plain space, no two whitespace characters are adjacent, and it neither
starts nor ends with whitespace. -/
def wsNormalized (s : String) : Bool :=
  s.data.all (fun c => !isPySpace c || c == ' ') &&
  noDoubleWs s.data && !headWs s.data && !lastWs s.data

/-! ### Helper lemmas about the merge engine -/

theorem keepRow_of_pid {r : Row} (h1 : pyStrip (r.headD "") = r.headD "")
    (h2 : r.headD "" ≠ "") : keepRow r = true := by
  cases r with
  | nil => simp at h2
  | cons c rest =>
    simp only [List.headD_cons] at h1 h2
    simp [keepRow, h1, h2]

theorem rowPid_eq_headD {r : Row} (h1 : pyStrip (r.headD "") = r.headD "") :
    rowPid r = r.headD "" := h1

theorem findHeaderIdx_block {a b : Row} {t : Sheet}
    (ha : isHeaderRow a = false) (hb : isHeaderRow b = true) :
    findHeaderIdx (a :: b :: t) = 1 := by
  simp [findHeaderIdx, findHeaderIdxAux, ha, hb]

theorem existingIds_block {a b : Row} {t : Sheet}
    (ha : isHeaderRow a = false) (hb : isHeaderRow b = true) :
    existingIds (a :: b :: t) =
      (t.filter keepRow).filterMap
        (fun r => if rowPid r = "" then none else some (rowPid r)) := by
  simp [existingIds, findHeaderIdx_block ha hb]

theorem rowPid_mem_existingIds {a b : Row} {t : Sheet} {r : Row}
    (ha : isHeaderRow a = false) (hb : isHeaderRow b = true)
    (hr : r ∈ t) (hk : keepRow r = true) (hp : rowPid r ≠ "") :
    rowPid r ∈ existingIds (a :: b :: t) := by
  rw [existingIds_block ha hb]
  exact List.mem_filterMap.mpr ⟨r, List.mem_filter.mpr ⟨hr, hk⟩, by simp [hp]⟩

theorem exists_row_of_mem_existingIds {s : Sheet} {x : String}
    (hx : x ∈ existingIds s) :
    ∃ r, r ∈ collectData s ∧ keepRow r = true ∧ rowPid r = x := by
  rcases List.mem_filterMap.mp hx with ⟨r, hr, he⟩
  refine ⟨r, hr, (List.mem_filter.mp hr).2, ?_⟩
  by_cases h : rowPid r = ""
  · rw [if_pos h] at he; cases he
  · rw [if_neg h] at he; exact Option.some.inj he

theorem mem_of_mem_collectData {s : Sheet} {r : Row}
    (h : r ∈ collectData s) : r ∈ s :=
  List.mem_of_mem_drop (List.mem_filter.mp h).1

theorem newRecords_eq_nil_iff {incoming : List Row} {existing : Sheet} :
    newRecords incoming existing = [] ↔
      ∀ r ∈ incoming, (r.headD "") ∈ existingIds existing := by
  simp [newRecords, List.filter_eq_nil_iff]

theorem mem_newRecords {incoming : List Row} {existing : Sheet} {r : Row}
    (hr : r ∈ incoming) (h : (r.headD "") ∉ existingIds existing) :
    r ∈ newRecords incoming existing := by
  refine List.mem_filter.mpr ⟨hr, ?_⟩
  simp only [Bool.not_eq_true', decide_eq_false_iff_not]
  exact h

/-! ### C1: idempotence of the subsequent-run merge -/

/-- C1 (amended): provided every incoming record id is non-empty and
carries no surrounding whitespace (as `norm_text` guarantees for scraped
records), a second merge with the same incoming records right after a
first one computes no new records — it is a NO_OP and leaves the stored
tab unchanged.  The label hypotheses state that the snapshot label row is
not mistaken for a header row and that the written header row is
recognized as one, which hold for the labels and headers the program
writes. -/
theorem c1_amended (label : String) (header : Row) (incoming : List Row)
    (existing : Sheet)
    (hhdr : isHeaderRow header = true)
    (hlbl : isHeaderRow [label] = false)
    (hids : ∀ r ∈ incoming, pyStrip (r.headD "") = r.headD "" ∧ r.headD "" ≠ "") :
    mergePlan header incoming (mergeStep label header incoming existing) =
      Plan.noop ∧
    mergeStep label header incoming (mergeStep label header incoming existing) =
      mergeStep label header incoming existing := by
  have key : ∀ r ∈ incoming,
      (r.headD "") ∈ existingIds (mergeStep label header incoming existing) := by
    intro r hr
    have hstrip := (hids r hr).1
    have hne := (hids r hr).2
    have hk : keepRow r = true := keepRow_of_pid hstrip hne
    have hpid : rowPid r = r.headD "" := rowPid_eq_headD hstrip
    by_cases hnr : newRecords incoming existing = []
    · have hS : mergeStep label header incoming existing = existing := by
        simp [mergeStep, mergePlan, hnr, applyPlan]
      rw [hS]
      exact (newRecords_eq_nil_iff.mp hnr) r hr
    · have hmemNew : ∀ (T : Sheet),
          (∀ row ∈ collectData existing, row ∈ T) →
          (∀ row ∈ newRecords incoming existing, row ∈ T) →
          (r.headD "") ∈ existingIds ([label] :: header :: T) := by
        intro T hold hnew
        by_cases hm : (r.headD "") ∈ existingIds existing
        · rcases exists_row_of_mem_existingIds hm with ⟨row, hrow, hkrow, hprow⟩
          have h1 := rowPid_mem_existingIds hlbl hhdr (hold row hrow) hkrow
            (by rw [hprow, hpid] at *; exact hprow ▸ hne)
          rw [hprow] at h1
          exact h1
        · have h1 := rowPid_mem_existingIds hlbl hhdr
            (hnew r (mem_newRecords hr hm)) hk (by rw [hpid]; exact hne)
          rw [hpid] at h1
          exact h1
      by_cases hse : setEq header (existingHeaderRow existing) = true
      · have hS : mergeStep label header incoming existing =
            [label] :: header ::
              ((newRecords incoming existing ++ [[""]]) ++ existing) := by
          simp [mergeStep, mergePlan, hnr, hse, applyPlan, snapshotBlock]
        rw [hS]
        refine hmemNew _ ?_ ?_
        · intro row hrow
          exact List.mem_append.mpr (Or.inr (mem_of_mem_collectData hrow))
        · intro row hrow
          exact List.mem_append.mpr (Or.inl (List.mem_append.mpr (Or.inl hrow)))
      · have hS : mergeStep label header incoming existing =
            [label] :: header ::
              ((collectData existing ++ newRecords incoming existing) ++ [[""]]) := by
          simp [mergeStep, mergePlan, hnr, hse, applyPlan, snapshotBlock]
        rw [hS]
        refine hmemNew _ ?_ ?_
        · intro row hrow
          exact List.mem_append.mpr (Or.inl (List.mem_append.mpr (Or.inl hrow)))
        · intro row hrow
          exact List.mem_append.mpr (Or.inl (List.mem_append.mpr (Or.inr hrow)))
  have hnil : newRecords incoming (mergeStep label header incoming existing) = [] :=
    newRecords_eq_nil_iff.mpr key
  have h1 : mergePlan header incoming (mergeStep label header incoming existing) =
      Plan.noop := by
    simp [mergePlan, hnil]
  refine ⟨h1, ?_⟩
  show applyPlan label (mergeStep label header incoming existing)
      (mergePlan header incoming (mergeStep label header incoming existing)) = _
  rw [h1]
  rfl

/-- C1 witness: a concrete second run over a previously merged tab is a
NO_OP and leaves the store unchanged. -/
theorem c1_witness :
    mergePlan ["Property ID", "Address"] [["7", "x"]]
      (mergeStep "Snapshot for B" ["Property ID", "Address"] [["7", "x"]]
        [["Snapshot for A"], ["Property ID", "Address"], ["1", "a"], [""]]) =
      Plan.noop ∧
    mergeStep "Snapshot for B" ["Property ID", "Address"] [["7", "x"]]
      (mergeStep "Snapshot for B" ["Property ID", "Address"] [["7", "x"]]
        [["Snapshot for A"], ["Property ID", "Address"], ["1", "a"], [""]]) =
    mergeStep "Snapshot for B" ["Property ID", "Address"] [["7", "x"]]
      [["Snapshot for A"], ["Property ID", "Address"], ["1", "a"], [""]] :=
  c1_amended "Snapshot for B" ["Property ID", "Address"] [["7", "x"]]
    [["Snapshot for A"], ["Property ID", "Address"], ["1", "a"], [""]]
    (by decide) (by decide) (by decide)

/-- C1 counterexample: for the record set containing the single record
with id " 7" (non-empty, but carrying a leading space) the second
immediately repeated merge is not a NO_OP: the stored copy of the id is
stripped when read back (`"7"`), the incoming id is compared raw (`" 7"`),
so the same record is classified as new again and a second block is
written.  This refutes the claim as stated, which quantifies over every
record set R. -/
theorem c1_counterexample :
    mergePlan ["Property ID", "Address"] [[" 7", "x"]]
      (mergeStep "Snapshot for B" ["Property ID", "Address"] [[" 7", "x"]]
        [["Snapshot for A"], ["Property ID", "Address"], ["1", "a"], [""]]) ≠
      Plan.noop := by decide

/-! ### C2: schema-migrating merge -/

/-- C2 (amended): in a schema-migrating merge whose incoming header
extends the stored header at the end by one new column, the tab afterwards
is exactly one snapshot block under the incoming header, consisting of the
collected historical rows (carried verbatim, hence still in the original
column order, which the extended header preserves) followed by the new
records; and for every collected historical row the cell of the new column
reads as the empty string (the row is shorter than the header and the
sheet was cleared before the write). -/
theorem c2_amended (label : String) (H : Row) (c : String)
    (incoming : List Row) (existing : Sheet)
    (hne : newRecords incoming existing ≠ [])
    (hmig : setEq (H ++ [c]) (existingHeaderRow existing) = false)
    (hlen : ∀ r ∈ existing, r.length ≤ H.length) :
    mergeStep label (H ++ [c]) incoming existing =
      snapshotBlock label (H ++ [c])
        (collectData existing ++ newRecords incoming existing) ∧
    ∀ r ∈ collectData existing, r.getD H.length "" = "" := by
  constructor
  · simp [mergeStep, mergePlan, hne, hmig, applyPlan]
  · intro r hr
    exact List.getD_eq_default _ _ (hlen r (mem_of_mem_collectData hr))

/-- C2 witness: migrating a two-column tab to a three-column header yields
a single flattened block and the historical row's new cell reads empty. -/
theorem c2_witness :
    mergeStep "Snapshot for B" (["Property ID", "Address"] ++ ["Sale Type"])
      [["9", "x", "New"]]
      [["Snapshot for A"], ["Property ID", "Address"], ["1", "a"], [""]] =
      snapshotBlock "Snapshot for B" (["Property ID", "Address"] ++ ["Sale Type"])
        (collectData [["Snapshot for A"], ["Property ID", "Address"], ["1", "a"], [""]] ++
          newRecords [["9", "x", "New"]]
            [["Snapshot for A"], ["Property ID", "Address"], ["1", "a"], [""]]) ∧
    ∀ r ∈ collectData [["Snapshot for A"], ["Property ID", "Address"], ["1", "a"], [""]],
      r.getD (List.length ["Property ID", "Address"]) "" = "" :=
  c2_amended "Snapshot for B" ["Property ID", "Address"] "Sale Type"
    [["9", "x", "New"]]
    [["Snapshot for A"], ["Property ID", "Address"], ["1", "a"], [""]]
    (by decide) (by decide) (by decide)

/-- C2 counterexample: the flattened block stores the pre-existing row
`["1", "a"]` with only two cells under the three-column header — the
value of the new column is omitted from the written row rather than being
written as an explicit empty string.  The claim's "never omitted" fails;
the cell only reads as empty because the sheet was cleared. -/
theorem c2_counterexample :
    mergeStep "Snapshot for B" ["Property ID", "Address", "Sale Type"]
      [["9", "x", "New"]]
      [["Snapshot for A"], ["Property ID", "Address"], ["1", "a"], [""]] =
      [["Snapshot for B"], ["Property ID", "Address", "Sale Type"],
        ["1", "a"], ["9", "x", "New"], [""]] ∧
    List.length (["1", "a"] : Row) <
      List.length (["Property ID", "Address", "Sale Type"] : Row) := by
  exact ⟨by decide, by decide⟩

/-! ### C5: header-matching PREPEND preserves all stored content -/

/-- C5: for a header-matching run with a non-empty set of new records the
result is the new snapshot block (label, header, new rows, blank
separator) placed above the untouched previous content; the prior content
is a suffix of the new content, every old row unchanged and in order. -/
theorem c5_prepend_no_loss (label : String) (header : Row)
    (incoming : List Row) (existing : Sheet)
    (hne : newRecords incoming existing ≠ [])
    (hmatch : setEq header (existingHeaderRow existing) = true) :
    mergeStep label header incoming existing =
      snapshotBlock label header (newRecords incoming existing) ++ existing ∧
    List.IsSuffix existing (mergeStep label header incoming existing) := by
  have h1 : mergeStep label header incoming existing =
      snapshotBlock label header (newRecords incoming existing) ++ existing := by
    simp [mergeStep, mergePlan, hne, hmatch, applyPlan]
  exact ⟨h1, ⟨snapshotBlock label header (newRecords incoming existing), h1.symm⟩⟩

/-- C5 witness: a concrete header-matching prepend. -/
theorem c5_witness :
    mergeStep "Snapshot for B" ["Property ID", "Address"] [["9", "x"]]
      [["Snapshot for A"], ["Property ID", "Address"], ["1", "a"], [""]] =
      snapshotBlock "Snapshot for B" ["Property ID", "Address"]
        (newRecords [["9", "x"]]
          [["Snapshot for A"], ["Property ID", "Address"], ["1", "a"], [""]]) ++
        [["Snapshot for A"], ["Property ID", "Address"], ["1", "a"], [""]] ∧
    List.IsSuffix [["Snapshot for A"], ["Property ID", "Address"], ["1", "a"], [""]]
      (mergeStep "Snapshot for B" ["Property ID", "Address"] [["9", "x"]]
        [["Snapshot for A"], ["Property ID", "Address"], ["1", "a"], [""]]) :=
  c5_prepend_no_loss "Snapshot for B" ["Property ID", "Address"] [["9", "x"]]
    [["Snapshot for A"], ["Property ID", "Address"], ["1", "a"], [""]]
    (by decide) (by decide)

/-! ### C7: first-run full overwrite -/

/-- C7: on the first run for a group (process-level first run, or the
group's tab missing) the tab is replaced by a single snapshot block whose
data rows are exactly the incoming records, independent of any prior tab
content, and the written tab has exactly `n + 3` rows for `n` incoming
records (label, header, `n` data rows, blank separator). -/
theorem c7_first_run_overwrite (firstRun tabExists : Bool) (label : String)
    (header : Row) (incoming : List Row) (existing : Sheet)
    (h : firstRun = true ∨ tabExists = false) :
    countyStep firstRun tabExists label header incoming existing =
      snapshotBlock label header incoming ∧
    (countyStep firstRun tabExists label header incoming existing).length =
      incoming.length + 3 := by
  have hc : (firstRun || !tabExists) = true := by
    rcases h with h | h <;> simp [h]
  have h1 : countyStep firstRun tabExists label header incoming existing =
      snapshotBlock label header incoming := by
    simp [countyStep, hc]
  refine ⟨h1, ?_⟩
  rw [h1]
  simp [snapshotBlock]

/-- C7 witness: a first run with five incoming records over a tab holding
unrelated junk yields a single block of exactly five rows. -/
theorem c7_witness :
    countyStep true true "Snapshot for A" ["Property ID", "Address"]
      [["1", "a"], ["2", "b"], ["3", "c"], ["4", "d"], ["5", "e"]]
      [["junk"], ["more junk"]] =
      snapshotBlock "Snapshot for A" ["Property ID", "Address"]
        [["1", "a"], ["2", "b"], ["3", "c"], ["4", "d"], ["5", "e"]] ∧
    (countyStep true true "Snapshot for A" ["Property ID", "Address"]
      [["1", "a"], ["2", "b"], ["3", "c"], ["4", "d"], ["5", "e"]]
      [["junk"], ["more junk"]]).length =
      (([["1", "a"], ["2", "b"], ["3", "c"], ["4", "d"], ["5", "e"]] : List Row)).length + 3 :=
  c7_first_run_overwrite true true "Snapshot for A" ["Property ID", "Address"]
    [["1", "a"], ["2", "b"], ["3", "c"], ["4", "d"], ["5", "e"]]
    [["junk"], ["more junk"]] (Or.inl rfl)

/-! ### C3: aggregate deduplication by the composite (group, id) key -/

/-- C3 (amended): aggregate dedup uses the composite `(county, id)` pair,
with the county of a stored row read at the single run-wide column index
(6 when the incoming batch carries Sale Type, else 5): two incoming rows
with the same non-empty id but different counties are both kept (when
neither pair is stored), and any row of the batch whose pair is already
stored at that index is not written again. -/
theorem c3_agg_dedup (hasST : Bool) (rows : List Row) (existing : Sheet)
    (r1 r2 : Row)
    (h1 : r1 ∈ rows) (h2 : r2 ∈ rows)
    (hpid : aggPid r1 = aggPid r2) (hp : aggPid r1 ≠ "")
    (hc1 : aggCty hasST r1 ≠ "") (hc2 : aggCty hasST r2 ≠ "")
    (hdiff : aggCty hasST r1 ≠ aggCty hasST r2)
    (hn1 : (aggCty hasST r1, aggPid r1) ∉ aggExistingPairs hasST existing)
    (hn2 : (aggCty hasST r2, aggPid r2) ∉ aggExistingPairs hasST existing) :
    (r1 ∈ aggNewRows hasST rows existing ∧
      r2 ∈ aggNewRows hasST rows existing) ∧
    ∀ r ∈ rows, (aggCty hasST r, aggPid r) ∈ aggExistingPairs hasST existing →
      r ∉ aggNewRows hasST rows existing := by
  refine ⟨⟨?_, ?_⟩, ?_⟩
  · refine List.mem_filter.mpr ⟨h1, ?_⟩
    simp only [decide_eq_true_eq]
    exact ⟨hp, hc1, hn1⟩
  · refine List.mem_filter.mpr ⟨h2, ?_⟩
    simp only [decide_eq_true_eq]
    exact ⟨hpid ▸ hp, hc2, hn2⟩
  · intro r _ hmem hcontra
    have hpred := (List.mem_filter.mp hcontra).2
    simp only [decide_eq_true_eq] at hpred
    exact hpred.2.2 hmem

/-- C3 witness: two incoming records with the same id "1" but different
counties are both kept by the aggregate merge. -/
theorem c3_witness :
    ["1", "a", "d", "s", "j", "Camden County, NJ"] ∈
      aggNewRows false
        [["1", "a", "d", "s", "j", "Camden County, NJ"],
         ["1", "a", "d", "s", "j", "Essex County, NJ"]] [] ∧
    ["1", "a", "d", "s", "j", "Essex County, NJ"] ∈
      aggNewRows false
        [["1", "a", "d", "s", "j", "Camden County, NJ"],
         ["1", "a", "d", "s", "j", "Essex County, NJ"]] [] :=
  (c3_agg_dedup false
    [["1", "a", "d", "s", "j", "Camden County, NJ"],
     ["1", "a", "d", "s", "j", "Essex County, NJ"]] []
    ["1", "a", "d", "s", "j", "Camden County, NJ"]
    ["1", "a", "d", "s", "j", "Essex County, NJ"]
    (by decide) (by decide) (by decide) (by decide) (by decide) (by decide)
    (by decide) (by decide) (by decide)).1

/-- C3 counterexample: the aggregate store holds the record with
`(group, id) = ("New Castle County, DE", "101")` in a base-format block
(County in column 5).  A later run whose batch carries Sale Type reads
County at column 6 for every stored row, finds the empty string there, and
therefore records no stored pair — so the identical incoming record is
written again.  The claim's "a record whose (group, id) pair already
appears in the stored rows is not written again" fails. -/
theorem c3_counterexample :
    aggNewRows true
      [["101", "a", "d", "s", "j", "Auction", "New Castle County, DE"]]
      [["Snapshot for D"],
       ["Property ID", "Address", "Defendant", "Sales Date",
        "Approx Judgment", "County"],
       ["101", "a", "d", "s", "j", "New Castle County, DE"], [""]] =
      [["101", "a", "d", "s", "j", "Auction", "New Castle County, DE"]] := by
  decide

/-! ### C4: column index used to read back the county of a stored row -/

/-- C4 (amended): when the incoming batch carries the extended
(Sale Type) schema, every stored `(county, id)` pair the aggregate merge
reconciles against is read with the fixed column index 6, chosen once for
the whole run from the incoming batch; consequently every recorded pair
comes from a stored row longer than six cells, and stored rows of the
base six-column schema never contribute a pair, whatever header their own
block carries. -/
theorem c4_amended (existing : Sheet) (p : String × String)
    (hp : p ∈ aggExistingPairs true existing) :
    ∃ r, r ∈ existing.drop (findHeaderIdx existing + 1) ∧ keepRow r = true ∧
      6 < r.length ∧ pyStrip (r.getD 6 "") = p.1 ∧ pyStrip (r.headD "") = p.2 := by
  rcases List.mem_filterMap.mp hp with ⟨r, hr, he⟩
  have hmemf := List.mem_filter.mp hr
  by_cases hcond : aggPid r ≠ "" ∧ aggCty true r ≠ ""
  · rw [if_pos hcond] at he
    have he' := Option.some.inj he
    refine ⟨r, hmemf.1, hmemf.2, ?_, ?_, ?_⟩
    · by_contra hle
      push_neg at hle
      have hd : r.getD 6 "" = "" := List.getD_eq_default _ _ (by omega)
      have : aggCty true r = "" := by
        show pyStrip (r.getD 6 "") = ""
        rw [hd]
        rfl
      exact hcond.2 this
    · rw [← he']; rfl
    · rw [← he']; rfl
  · rw [if_neg hcond] at he
    cases he

/-- C4 witness: a stored seven-column row contributes its pair, read at
index 6. -/
theorem c4_witness :
    ∃ r, r ∈ ([["Snapshot for D"],
        ["Property ID", "Address", "Defendant", "Sales Date",
         "Approx Judgment", "Sale Type", "County"],
        ["7", "a", "d", "s", "j", "t", "New Castle County, DE"], [""]] : Sheet).drop
        (findHeaderIdx [["Snapshot for D"],
          ["Property ID", "Address", "Defendant", "Sales Date",
           "Approx Judgment", "Sale Type", "County"],
          ["7", "a", "d", "s", "j", "t", "New Castle County, DE"], [""]] + 1) ∧
      keepRow r = true ∧ 6 < r.length ∧
      pyStrip (r.getD 6 "") = ("New Castle County, DE", "7").1 ∧
      pyStrip (r.headD "") = ("New Castle County, DE", "7").2 :=
  c4_amended
    [["Snapshot for D"],
     ["Property ID", "Address", "Defendant", "Sales Date",
      "Approx Judgment", "Sale Type", "County"],
     ["7", "a", "d", "s", "j", "t", "New Castle County, DE"], [""]]
    ("New Castle County, DE", "7") (by decide)

/-- C4 counterexample: a stored base-format block whose own header places
County at column 5 holds the row with county "New Castle County, DE" and
id "101", yet under an extended incoming batch the merge reads column 6 of
that row and records no pair at all.  Were the column index determined per
row from the header of the row's block, as the claim states, the pair
`("New Castle County, DE", "101")` would be recorded. -/
theorem c4_counterexample :
    aggExistingPairs true
      [["Snapshot for D"],
       ["Property ID", "Address", "Defendant", "Sales Date",
        "Approx Judgment", "County"],
       ["101", "a", "d", "s", "j", "New Castle County, DE"], [""]] = [] := by
  decide

/-! ### C6: styling failure after a successful data write -/

/-- C6 (amended): a successful data update is never rolled back — the
data stays written whatever happens to the styling request — and a failed
sheet-id lookup merely skips the styling without raising; but a styling
`batchUpdate` that raises `HttpError` propagates out of `write_values`
(the single `except HttpError` handler re-raises), so the claim's "does
not raise to its caller" does not hold for that failure. -/
theorem c6_amended (env : WriteEnv) (sty : ApiResult)
    (hok : env.dataUpdate = ApiResult.ok) :
    (write_values env).2 = true ∧
    write_values ⟨ApiResult.ok, none, sty⟩ = (false, true) ∧
    (write_values ⟨ApiResult.ok, some 0, ApiResult.httpError⟩).1 = true := by
  obtain ⟨d, sid, st⟩ := env
  simp only at hok
  subst hok
  refine ⟨?_, rfl, rfl⟩
  cases sid with
  | none => rfl
  | some i => cases st <;> rfl

/-- C6 witness: with a successful data update, a found sheet id and a
successful styling call, the data is persisted. -/
theorem c6_witness :
    (write_values ⟨ApiResult.ok, some 1, ApiResult.ok⟩).2 = true :=
  (c6_amended ⟨ApiResult.ok, some 1, ApiResult.ok⟩ ApiResult.ok rfl).1

/-- C6 counterexample: the data update succeeds, then the styling
`batchUpdate` raises `HttpError`; `write_values` raises to its caller
(first component `true`) even though the data write itself had completed
(second component `true`).  The claim states the call must not raise in
this situation. -/
theorem c6_counterexample :
    write_values ⟨ApiResult.ok, some 0, ApiResult.httpError⟩ = (true, true) :=
  rfl

/-! ### C9: process exit status -/

/-- C9 (amended): the exit status never depends on how many usable records
the run produced — it is 0 whenever `SPREADSHEET_ID` is set, the Sheets
client initializes and no fatal uncaught error occurs, records or not; a
run that produced no usable records merely logs a warning and skips the
aggregate sheet. -/
theorem c9_amended (a b f : Bool) (rows rows' : List Row) :
    processExitCode a b f rows = processExitCode a b f rows' ∧
    processExitCode true true false rows = 0 :=
  ⟨rfl, rfl⟩

/-- C9 counterexample: a run that produced no usable records across all
groups exits 0 (the claim demands a non-zero exit exactly then), while a
run with records but a missing `SPREADSHEET_ID` exits 1 (a non-zero exit
without the no-records condition) — "exactly when" fails in both
directions. -/
theorem c9_counterexample :
    processExitCode true true false ([] : List Row) = 0 ∧
    processExitCode false true false [["x"]] = 1 :=
  ⟨rfl, rfl⟩

/-! ### C8: rows collected for a schema-migrating flatten -/

/-- C8 (amended): the rows collected for flattening are the rows beneath
the first located header with blank separator rows (and empty rows)
removed, carried verbatim and in order (a sublist of the stored content);
every non-blank row beneath the header is collected — including the
snapshot label rows and header rows of older blocks, which are carried
into the flattened block as data. -/
theorem c8_amended (existing : Sheet) (r r' : Row)
    (hr : r ∈ collectData existing)
    (h1 : r' ∈ existing.drop (findHeaderIdx existing + 1))
    (h2 : keepRow r' = true) :
    List.Sublist (collectData existing) existing ∧
    (r ≠ [] ∧ ¬(r.length = 1 ∧ pyStrip (r.headD "") = "")) ∧
    r' ∈ collectData existing := by
  refine ⟨?_, ?_, List.mem_filter.mpr ⟨h1, h2⟩⟩
  · exact (List.filter_sublist _).trans (List.drop_sublist _ _)
  · have hk := (List.mem_filter.mp hr).2
    cases r with
    | nil => simp [keepRow] at hk
    | cons c rest =>
      refine ⟨by simp, ?_⟩
      rintro ⟨hlen, hstrip⟩
      have hrest : rest = [] := by
        simpa using hlen
      subst hrest
      simp only [List.headD_cons] at hstrip
      simp [keepRow, hstrip] at hk

/-- C8 witness: in a two-block tab, the data row of the older block is
collected. -/
theorem c8_witness :
    List.Sublist
      (collectData [["Snapshot for B"], ["Property ID", "Address"], ["2", "y"], [""],
        ["Snapshot for A"], ["Property ID", "Address"], ["1", "x"], [""]])
      [["Snapshot for B"], ["Property ID", "Address"], ["2", "y"], [""],
        ["Snapshot for A"], ["Property ID", "Address"], ["1", "x"], [""]] ∧
    ((["2", "y"] : Row) ≠ [] ∧
      ¬((["2", "y"] : Row).length = 1 ∧ pyStrip ((["2", "y"] : Row).headD "") = "")) ∧
    ["1", "x"] ∈ collectData [["Snapshot for B"], ["Property ID", "Address"],
      ["2", "y"], [""], ["Snapshot for A"], ["Property ID", "Address"], ["1", "x"], [""]] :=
  c8_amended
    [["Snapshot for B"], ["Property ID", "Address"], ["2", "y"], [""],
     ["Snapshot for A"], ["Property ID", "Address"], ["1", "x"], [""]]
    ["2", "y"] ["1", "x"] (by decide) (by decide) (by decide)

/-- C8 counterexample: with two stored blocks, the collected rows include
the older block's snapshot label row `["Snapshot for A"]` and its header
row — the claim states label rows (and header rows) of older blocks are
skipped and never carried into the flattened block as data. -/
theorem c8_counterexample :
    collectData [["Snapshot for B"], ["Property ID", "Address"], ["2", "y"], [""],
      ["Snapshot for A"], ["Property ID", "Address"], ["1", "x"], [""]] =
      [["2", "y"], ["Snapshot for A"], ["Property ID", "Address"], ["1", "x"]] := by
  decide

/-! ### Helper lemmas about `norm_text` -/

theorem collapseGo_space (l : List Char) :
    ∀ b c, c ∈ collapseGo b l → isPySpace c = true → c = ' ' := by
  induction l with
  | nil => intro b c hm _; cases b <;> simp [collapseGo] at hm
  | cons a l ih =>
    intro b c hm hws
    by_cases ha : isPySpace a = true
    · cases b with
      | true =>
        simp only [collapseGo, if_pos ha] at hm
        exact ih true c hm hws
      | false =>
        simp only [collapseGo, if_pos ha] at hm
        rcases List.mem_cons.mp hm with hc | hm
        · exact hc
        · exact ih true c hm hws
    · cases b with
      | true =>
        simp only [collapseGo, if_neg ha] at hm
        rcases List.mem_cons.mp hm with hc | hm
        · subst hc; exact absurd hws ha
        · exact ih false c hm hws
      | false =>
        simp only [collapseGo, if_neg ha] at hm
        rcases List.mem_cons.mp hm with hc | hm
        · subst hc; exact absurd hws ha
        · exact ih false c hm hws

theorem collapseGo_head (l : List Char) :
    headWs (collapseGo true l) = false := by
  induction l with
  | nil => rfl
  | cons a l ih =>
    by_cases ha : isPySpace a = true
    · simp only [collapseGo, if_pos ha]
      exact ih
    · simp only [collapseGo, if_neg ha]
      simpa [headWs] using ha

theorem noDoubleWs_tail {a : Char} {l : List Char}
    (h : noDoubleWs (a :: l) = true) : noDoubleWs l = true := by
  cases l with
  | nil => rfl
  | cons b t =>
    rw [noDoubleWs, Bool.and_eq_true] at h
    exact h.2

theorem noDoubleWs_cons {a : Char} {l : List Char} (h : noDoubleWs l = true)
    (h2 : isPySpace a = false ∨ headWs l = false) :
    noDoubleWs (a :: l) = true := by
  cases l with
  | nil => rfl
  | cons b t =>
    have hb : (isPySpace a && isPySpace b) = false := by
      rcases h2 with h2 | h2
      · simp [h2]
      · simp only [headWs] at h2
        simp [h2]
    rw [noDoubleWs, Bool.and_eq_true]
    exact ⟨by simp [hb], h⟩

theorem collapseGo_noDouble (l : List Char) :
    ∀ b, noDoubleWs (collapseGo b l) = true := by
  induction l with
  | nil => intro b; cases b <;> rfl
  | cons a l ih =>
    intro b
    by_cases ha : isPySpace a = true
    · cases b with
      | true =>
        simp only [collapseGo, if_pos ha]
        exact ih true
      | false =>
        simp only [collapseGo, if_pos ha]
        exact noDoubleWs_cons (ih true) (Or.inr (collapseGo_head l))
    · have ha' : isPySpace a = false := by
        revert ha; cases isPySpace a <;> simp
      cases b with
      | true =>
        simp only [collapseGo, if_neg ha]
        exact noDoubleWs_cons (ih false) (Or.inl ha')
      | false =>
        simp only [collapseGo, if_neg ha]
        exact noDoubleWs_cons (ih false) (Or.inl ha')

theorem collapseGo_filter (l : List Char) :
    ∀ b, (collapseGo b l).filter (fun c => !isPySpace c) =
      l.filter (fun c => !isPySpace c) := by
  induction l with
  | nil => intro b; cases b <;> rfl
  | cons a l ih =>
    intro b
    have hsp : isPySpace ' ' = true := by decide
    by_cases ha : isPySpace a = true
    · cases b with
      | true =>
        simp only [collapseGo, if_pos ha]
        rw [ih true, List.filter_cons]
        simp [ha]
      | false =>
        simp only [collapseGo, if_pos ha]
        rw [List.filter_cons, List.filter_cons]
        simp [ha, hsp, ih true]
    · cases b with
      | true =>
        simp only [collapseGo, if_neg ha]
        rw [List.filter_cons, List.filter_cons, ih false]
      | false =>
        simp only [collapseGo, if_neg ha]
        rw [List.filter_cons, List.filter_cons, ih false]

theorem collapseGo_mem {l : List Char} {c : Char} :
    ∀ {b}, c ∈ collapseGo b l → c = ' ' ∨ c ∈ l := by
  induction l with
  | nil => intro b hm; cases b <;> simp [collapseGo] at hm
  | cons a l ih =>
    intro b hm
    by_cases ha : isPySpace a = true
    · cases b with
      | true =>
        simp only [collapseGo, if_pos ha] at hm
        rcases ih hm with h | h
        · exact Or.inl h
        · exact Or.inr (List.mem_cons_of_mem a h)
      | false =>
        simp only [collapseGo, if_pos ha] at hm
        rcases List.mem_cons.mp hm with hc | hm
        · exact Or.inl hc
        · rcases ih hm with h | h
          · exact Or.inl h
          · exact Or.inr (List.mem_cons_of_mem a h)
    · have step : c ∈ a :: collapseGo false l → c = ' ' ∨ c ∈ a :: l := by
        intro hm'
        rcases List.mem_cons.mp hm' with hc | hm'
        · exact Or.inr (hc ▸ List.mem_cons_self a l)
        · rcases ih hm' with h | h
          · exact Or.inl h
          · exact Or.inr (List.mem_cons_of_mem a h)
      cases b with
      | true =>
        simp only [collapseGo, if_neg ha] at hm
        exact step hm
      | false =>
        simp only [collapseGo, if_neg ha] at hm
        exact step hm

theorem headWs_dropWhile (l : List Char) :
    headWs (l.dropWhile isPySpace) = false := by
  induction l with
  | nil => rfl
  | cons a l ih =>
    by_cases ha : isPySpace a = true
    · rw [List.dropWhile_cons, if_pos ha]
      exact ih
    · rw [List.dropWhile_cons, if_neg ha]
      simpa [headWs] using ha

theorem noDoubleWs_dropWhile (l : List Char) (h : noDoubleWs l = true) :
    noDoubleWs (l.dropWhile isPySpace) = true := by
  induction l with
  | nil => rfl
  | cons a l ih =>
    by_cases ha : isPySpace a = true
    · rw [List.dropWhile_cons, if_pos ha]
      exact ih (noDoubleWs_tail h)
    · rw [List.dropWhile_cons, if_neg ha]
      exact h

theorem filter_dropWhile (l : List Char) :
    (l.dropWhile isPySpace).filter (fun c => !isPySpace c) =
      l.filter (fun c => !isPySpace c) := by
  induction l with
  | nil => rfl
  | cons a l ih =>
    by_cases ha : isPySpace a = true
    · rw [List.dropWhile_cons, if_pos ha, ih, List.filter_cons]
      simp [ha]
    · rw [List.dropWhile_cons, if_neg ha]

theorem trimEndWs_mem {l : List Char} {c : Char} (h : c ∈ trimEndWs l) :
    c ∈ l := by
  induction l with
  | nil => simpa [trimEndWs] using h
  | cons a l ih =>
    rw [trimEndWs] at h
    by_cases hc : ((trimEndWs l).isEmpty && isPySpace a) = true
    · rw [if_pos hc] at h
      simp at h
    · rw [if_neg hc] at h
      rcases List.mem_cons.mp h with hc' | h
      · exact hc' ▸ List.mem_cons_self a l
      · exact List.mem_cons_of_mem a (ih h)

theorem trimEndWs_nil_filter {l : List Char} (h : trimEndWs l = []) :
    l.filter (fun c => !isPySpace c) = [] := by
  induction l with
  | nil => rfl
  | cons a l ih =>
    rw [trimEndWs] at h
    by_cases hc : ((trimEndWs l).isEmpty && isPySpace a) = true
    · rw [Bool.and_eq_true, List.isEmpty_iff] at hc
      rw [List.filter_cons]
      simp only [hc.2, Bool.not_true]
      simp only [Bool.false_eq_true, if_false]
      exact ih hc.1
    · rw [if_neg hc] at h
      cases h

theorem trimEndWs_filter (l : List Char) :
    (trimEndWs l).filter (fun c => !isPySpace c) =
      l.filter (fun c => !isPySpace c) := by
  induction l with
  | nil => rfl
  | cons a l ih =>
    rw [trimEndWs]
    by_cases hc : ((trimEndWs l).isEmpty && isPySpace a) = true
    · rw [if_pos hc]
      rw [Bool.and_eq_true, List.isEmpty_iff] at hc
      rw [List.filter_cons]
      simp only [hc.2, Bool.not_true]
      simp only [Bool.false_eq_true, if_false]
      exact (trimEndWs_nil_filter hc.1).symm
    · rw [if_neg hc, List.filter_cons, List.filter_cons, ih]

theorem trimEndWs_head {l : List Char} (h : headWs l = false) :
    headWs (trimEndWs l) = false := by
  cases l with
  | nil => rfl
  | cons a l =>
    rw [trimEndWs]
    by_cases hc : ((trimEndWs l).isEmpty && isPySpace a) = true
    · rw [if_pos hc]; rfl
    · rw [if_neg hc]
      exact h

theorem trimEndWs_noDouble {l : List Char} (h : noDoubleWs l = true) :
    noDoubleWs (trimEndWs l) = true := by
  induction l with
  | nil => rfl
  | cons a l ih =>
    rw [trimEndWs]
    by_cases hc : ((trimEndWs l).isEmpty && isPySpace a) = true
    · rw [if_pos hc]; rfl
    · rw [if_neg hc]
      refine noDoubleWs_cons (ih (noDoubleWs_tail h)) ?_
      cases l with
      | nil => exact Or.inr rfl
      | cons d ds =>
        cases htr : trimEndWs (d :: ds) with
        | nil => exact Or.inr rfl
        | cons y ys =>
          have hy : y = d := by
            rw [trimEndWs] at htr
            by_cases hc2 : ((trimEndWs ds).isEmpty && isPySpace d) = true
            · rw [if_pos hc2] at htr; cases htr
            · rw [if_neg hc2] at htr
              exact (List.cons.inj htr).1.symm
          rw [noDoubleWs, Bool.and_eq_true] at h
          have hpair : (isPySpace a && isPySpace d) = false := by
            have h1 := h.1
            rwa [Bool.not_eq_true'] at h1
          rcases Bool.and_eq_false_iff.mp hpair with hpair | hpair
          · exact Or.inl hpair
          · refine Or.inr ?_
            simpa [headWs, hy] using hpair

theorem headWs_append {l m : List Char} (h : l ≠ []) :
    headWs (l ++ m) = headWs l := by
  cases l with
  | nil => exact absurd rfl h
  | cons a t => rfl

theorem lastWs_cons {a : Char} {l : List Char} (h : l ≠ []) :
    lastWs (a :: l) = lastWs l := by
  unfold lastWs
  rw [List.reverse_cons]
  exact headWs_append (by simpa using h)

theorem trimEndWs_last (l : List Char) : lastWs (trimEndWs l) = false := by
  induction l with
  | nil => rfl
  | cons a l ih =>
    rw [trimEndWs]
    by_cases hc : ((trimEndWs l).isEmpty && isPySpace a) = true
    · rw [if_pos hc]; rfl
    · rw [if_neg hc]
      cases htr : trimEndWs l with
      | nil =>
        have ha : isPySpace a = false := by
          rw [htr] at hc
          simpa using hc
        simp [lastWs, headWs, ha]
      | cons y ys =>
        rw [lastWs_cons (List.cons_ne_nil y ys), ← htr]
        exact ih

theorem stripChars_head (l : List Char) : headWs (stripChars l) = false :=
  trimEndWs_head (headWs_dropWhile l)

theorem stripChars_last (l : List Char) : lastWs (stripChars l) = false :=
  trimEndWs_last _

theorem stripChars_noDouble {l : List Char} (h : noDoubleWs l = true) :
    noDoubleWs (stripChars l) = true :=
  trimEndWs_noDouble (noDoubleWs_dropWhile l h)

theorem stripChars_mem {l : List Char} {c : Char} (h : c ∈ stripChars l) :
    c ∈ l :=
  (List.dropWhile_sublist isPySpace).subset (trimEndWs_mem h)

theorem stripChars_filter (l : List Char) :
    (stripChars l).filter (fun c => !isPySpace c) =
      l.filter (fun c => !isPySpace c) := by
  unfold stripChars
  rw [trimEndWs_filter, filter_dropWhile]

/-- Any output of `norm_text` is whitespace-normalized. -/
theorem wsNormalized_norm_text (s : String) :
    wsNormalized (norm_text s) = true := by
  by_cases hs : s = ""
  · subst hs; rfl
  · rw [norm_text, if_neg hs]
    show wsNormalized (String.mk (stripChars (collapseGo false s.data))) = true
    unfold wsNormalized
    have hall : (stripChars (collapseGo false s.data)).all
        (fun c => !isPySpace c || c == ' ') = true := by
      rw [List.all_eq_true]
      intro c hc
      by_cases hws : isPySpace c = true
      · have hmem : c ∈ collapseGo false s.data := stripChars_mem hc
        have := collapseGo_space s.data false c hmem hws
        simp [this]
      · have hws' : isPySpace c = false := by simpa using hws
        simp [hws']
    have hnd : noDoubleWs (stripChars (collapseGo false s.data)) = true :=
      stripChars_noDouble (collapseGo_noDouble s.data false)
    have hh : headWs (stripChars (collapseGo false s.data)) = false :=
      stripChars_head _
    have hl : lastWs (stripChars (collapseGo false s.data)) = false :=
      stripChars_last _
    simp [hall, hnd, hh, hl]

/-! ### C10: every scraped field value is whitespace-normalized -/

/-- C10: `norm_text` returns the empty string on empty input, and on any
input returns a string with no leading or trailing whitespace in which
every internal whitespace run has been collapsed to a single space (every
whitespace character of the output is a plain space and no two are
adjacent) while all non-whitespace characters are preserved in order; the
scraper applies `norm_text` to every field value of every record (the
comprehension modelled by `normalizeRecord`), so every stored field value
is whitespace-normalized. -/
theorem c10_norm_text_normalized (s : String) (row : List (String × String)) :
    wsNormalized (norm_text s) = true ∧
    (norm_text s).data.filter (fun c => !isPySpace c) =
      s.data.filter (fun c => !isPySpace c) ∧
    norm_text "" = "" ∧
    ((normalizeRecord row).all fun kv => wsNormalized kv.2) = true := by
  refine ⟨wsNormalized_norm_text s, ?_, rfl, ?_⟩
  · by_cases hs : s = ""
    · subst hs; rfl
    · rw [norm_text, if_neg hs]
      show (stripChars (collapseGo false s.data)).filter _ = _
      rw [stripChars_filter, collapseGo_filter]
  · rw [List.all_eq_true]
    intro kv hkv
    rcases List.mem_map.mp hkv with ⟨ab, _, hab⟩
    rw [← hab]
    exact wsNormalized_norm_text ab.2

end Foreclosure
